import Mathlib

/-!
# Shallow embedding of the `wall_follower` ROS node

This file embeds the core of `src/wall_follower/src/wall_follower.cpp`
(class `WallFollower`, header `wall_follower.hpp`) in Lean 4 and proves
properties of the embedded code.

Numeric values are modelled as rationals (ℚ); the C++ code uses `double`,
and every constant appearing in the code (0.2, 0.3, 0.6, 0.7, 0.8, 0.9,
1.5, thresholds) is exactly representable, so the control flow of the
embedded code matches the source on the inputs considered here.

`std::vector::at` is modelled by `List.get?` together with an explicit
out-of-range error (`Except`), mirroring the `std::out_of_range`
exception: mutations performed before the throwing access persist, the
rest of the callback body is skipped.

The fields `initial_scan` and `new_scan_data` are used by the .cpp file;
the header in the repository declares `new_scan_data_ = false` and
`since_new_scan = 0`.  We model both flags as booleans initialised to
`false`, and `since_new_scan` as a natural number initialised to `0`.
-/

set_option maxRecDepth 20000

namespace WallFollower

/-- Sector index constants from `wall_follower.hpp`. -/
def FRONT : Fin 12 := 0

def FRONT_LEFT : Fin 12 := 1

def LEFT_FRONT : Fin 12 := 2

def FRONT_RIGHT : Fin 12 := 11

/-- `#define BASE_FACTOR 0.8` -/
def BASE_FACTOR : ℚ := 8/10

/-- `#define START_RANGE 0.2` -/
def START_RANGE : ℚ := 2/10

/-- `#define BEAM_WIDTH 10` -/
def BEAM_WIDTH : ℕ := 10

/-- Orientation quaternion as delivered to `odom_callback`. -/
structure Quat where
  qx : ℚ
  qy : ℚ
  qz : ℚ
  qw : ℚ
deriving DecidableEq, Repr

/-- The mutable state of the `WallFollower` node: its member variables
(`robot_pose_`, `start_x`, `start_y`, `near_start`, `scan_data_`,
`new_scan_data`, `since_new_scan`, `initial_scan`) together with the two
function-local `static` flags of `odom_callback` (`first`,
`start_moving`). -/
structure State where
  robot_pose_ : ℚ
  start_x : ℚ
  start_y : ℚ
  near_start : Bool
  scan_data_ : Fin 12 → ℚ
  new_scan_data : Bool
  since_new_scan : ℕ
  initial_scan : Bool
  first : Bool
  start_moving : Bool
deriving DecidableEq

/-- The state after the constructor runs: `scan_data_[i] = 0.0`,
`robot_pose_ = 0.0`, `near_start = false`; flags at their initialisers
(`first = true`, `start_moving = true` are the initial values of the
statics in `odom_callback`; `start_x`/`start_y` are uninitialised doubles
in the source, modelled as 0 — they are written before first read because
`first` starts `true`). -/
def initState : State where
  robot_pose_ := 0
  start_x := 0
  start_y := 0
  near_start := false
  scan_data_ := fun _ => 0
  new_scan_data := false
  since_new_scan := 0
  initial_scan := false
  first := true
  start_moving := true

/-- `msg->ranges.at(angle)`: the checked vector access; `none` models the
`std::out_of_range` exception. -/
def rangeAt (ranges : List ℚ) (i : ℕ) : Option ℚ :=
  ranges.get? i

/-- One aggregation loop of `scan_callback`: starting from `closest`,
fold `if (ranges.at(angle) < closest) closest = ranges.at(angle)` over the
listed indices, propagating an out-of-range exception (`none`). -/
def minOver (ranges : List ℚ) : List ℕ → ℚ → Option ℚ
  | [], closest => some closest
  | i :: rest, closest =>
    match rangeAt ranges i with
    | some v => minOver ranges rest (if v < closest then v else closest)
    | none => none

/-- `scan_angle[12] = {0, 30, 60, 90, 120, 150, 180, 210, 240, 270, 300, 330}` -/
def scan_angle (i : Fin 12) : ℕ := 30 * i.val

/-- The indices visited for sector 0: `angle = 360-BEAM_WIDTH .. 359`
then `angle = 0 .. BEAM_WIDTH-1`. -/
def frontIndices : List ℕ :=
  ((List.range BEAM_WIDTH).map (fun k => (360 - BEAM_WIDTH) + k)) ++ List.range BEAM_WIDTH

/-- The indices visited for sector `i ≥ 1`:
`angle = scan_angle[i]-BEAM_WIDTH .. scan_angle[i]+BEAM_WIDTH-1`. -/
def sectorIndices (i : Fin 12) : List ℕ :=
  if i.val = 0 then frontIndices
  else (List.range (2 * BEAM_WIDTH)).map (fun k => (scan_angle i - BEAM_WIDTH) + k)

/-- The sector loop of `scan_callback`, in order `0, 1, …, 11`: each
sector's minimum is written into `scan_data_[i]` when its loop completes;
an out-of-range exception aborts the remaining sectors, leaving the
already-written entries in place.  Returns the (possibly partially
updated) array and whether the exception was thrown. -/
def scanSectors (ranges : List ℚ) (range_max : ℚ) :
    List (Fin 12) → (Fin 12 → ℚ) → (Fin 12 → ℚ) × Bool
  | [], sd => (sd, false)
  | i :: rest, sd =>
    match minOver ranges (sectorIndices i) range_max with
    | some v => scanSectors ranges range_max rest (fun j => if j = i then v else sd j)
    | none => (sd, true)

/-- The sector processing order of `scan_callback`: sector 0 (the
wrap-around front sector, lines 127–134), then sectors 1–11 (the
`for (int i = 1; i < 12; i++)` loop). -/
def allSectors : List (Fin 12) := [0, 1, 2, 3, 4, 5, 6, 7, 8, 9, 10, 11]

/-- `WallFollower::scan_callback`.  Sets `initial_scan` and
`new_scan_data` first (lines 123–124 of the source), then runs the
aggregation loops.  The returned `Bool` records whether
`std::out_of_range` was thrown partway (in which case the remaining
writes are skipped but the earlier mutations persist). -/
def scan_callback (ranges : List ℚ) (range_max : ℚ) (s : State) : State × Bool :=
  let s1 := { s with initial_scan := true, new_scan_data := true }
  let r := scanSectors ranges range_max allSectors s1.scan_data_
  ({ s1 with scan_data_ := r.1 }, r.2)

/-- `WallFollower::odom_callback`.  `yawOf` abstracts the
quaternion-to-yaw extraction (`tf2::Matrix3x3::getRPY`); its result is
stored in `robot_pose_` and affects nothing else.  The returned `Bool` is
the near-start pulse observable: `true` exactly when the branch that
prints `"Near start!!"` runs (the DEPARTED-to-ARRIVED transition). -/
def odom_callback (yawOf : Quat → ℚ) (q : Quat) (px py : ℚ) (s : State) : State × Bool :=
  let s := { s with robot_pose_ := yawOf q }
  if s.first then
    ({ s with start_x := px, start_y := py, first := false }, false)
  else if s.start_moving then
    if |px - s.start_x| > START_RANGE ∨ |py - s.start_y| > START_RANGE then
      ({ s with start_moving := false }, false)
    else (s, false)
  else if |px - s.start_x| < START_RANGE ∧ |py - s.start_y| < START_RANGE then
    ({ s with near_start := true, first := true, start_moving := true }, true)
  else (s, false)

/-- `WallFollower::update_cmd_vel`: publishes
`(linear * factor, angular * factor)`. -/
def update_cmd_vel (linear angular factor : ℚ) : ℚ × ℚ :=
  (linear * factor, angular * factor)

/-- `WallFollower::update_velocity`: the rule ladder, each branch calling
`update_cmd_vel(lin, ang, factor)` with `factor = BASE_FACTOR ^ since_new_scan`. -/
def update_velocity (s : State) : ℚ × ℚ :=
  let factor := BASE_FACTOR ^ s.since_new_scan
  if s.near_start then
    update_cmd_vel 0 0 factor
  else if s.scan_data_ LEFT_FRONT > 9/10 then
    update_cmd_vel (2/10) (15/10) factor
  else if s.scan_data_ FRONT < 7/10 then
    update_cmd_vel 0 (-(15/10)) factor
  else if s.scan_data_ FRONT_LEFT < 6/10 then
    update_cmd_vel (3/10) (-(15/10)) factor
  else if s.scan_data_ FRONT_RIGHT < 6/10 then
    update_cmd_vel (3/10) (15/10) factor
  else if s.scan_data_ LEFT_FRONT > 6/10 then
    update_cmd_vel (3/10) (15/10) factor
  else
    update_cmd_vel (3/10) 0 factor

/-- `WallFollower::update_callback`: the periodic tick.  Returns the
updated state and the command published this tick (`none` when the
`initial_scan` gate skips the cycle). -/
def update_callback (s : State) : State × Option (ℚ × ℚ) :=
  if !s.initial_scan then (s, none)
  else
    let s :=
      if s.new_scan_data then { s with new_scan_data := false, since_new_scan := 0 }
      else { s with since_new_scan := s.since_new_scan + 1 }
    (s, some (update_velocity s))

/-- An input event delivered to the node: a laser scan, an odometry
sample, or a timer tick. -/
inductive Event where
  | scan (ranges : List ℚ) (range_max : ℚ)
  | odom (q : Quat) (px py : ℚ)
  | tick
deriving DecidableEq

/-- One event dispatch: routes the event to the matching callback and
records the command published during it (only ticks publish). -/
def step (yawOf : Quat → ℚ) (s : State) : Event → State × Option (ℚ × ℚ)
  | Event.scan ranges range_max => ((scan_callback ranges range_max s).1, none)
  | Event.odom q px py => ((odom_callback yawOf q px py s).1, none)
  | Event.tick => update_callback s

/-- Run a sequence of events from a state, collecting per-event outputs. -/
def run (yawOf : Quat → ℚ) (s : State) : List Event → State × List (Option (ℚ × ℚ))
  | [] => (s, [])
  | e :: rest =>
    let p := step yawOf s e
    let r := run yawOf p.1 rest
    (r.1, p.2 :: r.2)

/-- Feed a list of pose samples (with a fixed orientation quaternion `q`)
through `odom_callback`, collecting the near-start pulse raised (or not)
at each sample. -/
def runPoses (yawOf : Quat → ℚ) (q : Quat) (s : State) :
    List (ℚ × ℚ) → State × List Bool
  | [] => (s, [])
  | p :: rest =>
    let r := odom_callback yawOf q p.1 p.2 s
    let rr := runPoses yawOf q r.1 rest
    (rr.1, r.2 :: rr.2)

/-- Whether an event is a scan delivery. -/
def isScan : Event → Bool
  | Event.scan _ _ => true
  | _ => false

/-- Whether any event of the list is a scan delivery. -/
def hasScan (t : List Event) : Bool :=
  t.any isScan

/-- The completed aggregation value of one sector: the fold of
`if (ranges.at(angle) < closest) closest = ...` over the sector's
indices starting from `range_max`, written with `min` (closed form of
`minOver` when every index is in range). -/
def sectorMin (ranges : List ℚ) (range_max : ℚ) (i : Fin 12) : ℚ :=
  (sectorIndices i).foldl (fun acc k => min acc (ranges.getD k 0)) range_max

/-- Erase the orientation quaternion of an odometry event (replace it by
a fixed dummy); two traces with the same `eventShadow` image agree on
everything except orientations. -/
def eventShadow : Event → Event
  | Event.odom _ px py => Event.odom ⟨0, 0, 0, 0⟩ px py
  | e => e

/-- Erase the only orientation-derived field of the state
(`robot_pose_`). -/
def stateShadow (s : State) : State := { s with robot_pose_ := 0 }

/-- The DecisionPolicy rule ladder exactly as the specification states
it (spec §4.4), written independently of `update_velocity` for
comparison: pulse → (0,0); left-front > 0.9 → (0.2, 1.5);
front < 0.7 → (0, −1.5); front-left < 0.6 → (0.3, −1.5);
front-right < 0.6 → (0.3, 1.5); left-front > 0.6 → (0.3, 1.5);
default (0.3, 0). -/
def specDecisionPolicy (sd : Fin 12 → ℚ) (pulse : Bool) : ℚ × ℚ :=
  if pulse then (0, 0)
  else if sd LEFT_FRONT > 9/10 then (2/10, 15/10)
  else if sd FRONT < 7/10 then (0, -(15/10))
  else if sd FRONT_LEFT < 6/10 then (3/10, -(15/10))
  else if sd FRONT_RIGHT < 6/10 then (3/10, 15/10)
  else if sd LEFT_FRONT > 6/10 then (3/10, 15/10)
  else (3/10, 0)

/-- A full-length scan whose every sample is 1.0. -/
def onesScan : List ℚ := List.replicate 360 1

/-- A dummy orientation quaternion. -/
def q0 : Quat := ⟨0, 0, 0, 1⟩

/-- A dummy yaw-extraction function. -/
def yaw0 : Quat → ℚ := fun _ => 0

/-- A state with every cached clearance equal to 2, a staleness counter
of 5, and the first-scan gate open: the "prior value" state used to
exercise `scan_callback` on an under-length scan. -/
def staleState : State :=
  { initState with scan_data_ := (fun _ => 2), since_new_scan := 5, initial_scan := true }

/-- A trace in which the near-start pulse fires (scan; odometry at the
start, far away, back near the start) followed by two ticks. -/
def pulseTrace : List Event :=
  [Event.scan onesScan (7/2), Event.odom q0 0 0, Event.odom q0 1 1,
   Event.odom q0 (1/20) (1/20), Event.tick, Event.tick]

/-! ## Theorems -/

/-- Helper: one event preserves a raised `near_start`, and can only emit
the stop command (or nothing) while it is raised: nothing in the code
ever clears `near_start`. -/
theorem near_start_step (yawOf : Quat → ℚ) (s : State) (e : Event)
    (h : s.near_start = true) :
    (step yawOf s e).1.near_start = true
    ∧ ((step yawOf s e).2 = none ∨ (step yawOf s e).2 = some (0, 0)) := by
  cases e with
  | scan ranges range_max =>
    exact ⟨h, Or.inl rfl⟩
  | odom q px py =>
    refine ⟨?_, Or.inl rfl⟩
    simp only [step, odom_callback]
    split_ifs <;> simp [h]
  | tick =>
    simp only [step, update_callback]
    split_ifs with hgate hnew <;>
      simp_all [update_velocity, update_cmd_vel]

/-- C1 (amended): once the start-proximity tracker raises the near-start
pulse, it is never cleared: for every continuation of the execution the
flag stays raised, and every command emitted from then on is the stop
command (0, 0) — the pulse is a held level observed by every later
DecisionPolicy evaluation, not consumed by the first one. -/
theorem C1_pulse_is_level (yawOf : Quat → ℚ) (s : State) (trace : List Event)
    (h : s.near_start = true) :
    (run yawOf s trace).1.near_start = true
    ∧ ∀ o ∈ (run yawOf s trace).2, o = none ∨ o = some (0, 0) := by
  induction trace generalizing s with
  | nil => exact ⟨h, by intro o ho; cases ho⟩
  | cons e rest ih =>
    obtain ⟨h1, h2⟩ := near_start_step yawOf s e h
    obtain ⟨ih1, ih2⟩ := ih _ h1
    refine ⟨ih1, ?_⟩
    intro o ho
    rcases List.mem_cons.mp ho with rfl | hmem
    · exact h2
    · exact ih2 o hmem

/-- C1 (witness for the amended theorem): with the pulse raised, the
state after a further tick still has it raised. -/
theorem C1_pulse_is_level_witness :
    (run yaw0 { initState with near_start := true } [Event.tick]).1.near_start = true :=
  (C1_pulse_is_level yaw0 { initState with near_start := true } [Event.tick] rfl).1

/-- C1 (counterexample): after the pulse fires (fourth event of
`pulseTrace`), the first tick emits the stop command — but so does the
second tick, and `near_start` is still raised when the second tick
evaluates: the pulse is observed by a second DecisionPolicy evaluation
with no new DEPARTED-to-ARRIVED transition in between. -/
theorem C1_counterexample :
    (run yaw0 initState pulseTrace).2
      = [none, none, none, none, some (0, 0), some (0, 0)]
    ∧ (run yaw0 initState (pulseTrace.take 5)).1.near_start = true
    ∧ (run yaw0 initState pulseTrace).1.near_start = true := by
  refine ⟨?_, ?_, ?_⟩ <;> with_unfolding_all decide

/-- Helper: the aggregation loop throws (returns `none`) whenever some
visited index is outside the scan. -/
theorem minOver_none_of_oob (ranges : List ℚ) :
    ∀ (idxs : List ℕ) (c : ℚ), (∃ i ∈ idxs, ranges.length ≤ i) →
      minOver ranges idxs c = none := by
  intro idxs
  induction idxs with
  | nil =>
    rintro c ⟨i, hi, -⟩
    cases hi
  | cons j rest ih =>
    rintro c ⟨i, hi, hlen⟩
    rcases List.mem_cons.mp hi with rfl | hmem
    · have hz : rangeAt ranges i = none := by
        simp only [rangeAt, List.get?_eq_none]
        exact hlen
      simp [minOver, hz]
    · cases hj : rangeAt ranges j with
      | none => simp [minOver, hj]
      | some v =>
        simp only [minOver, hj]
        exact ih _ ⟨i, hmem, hlen⟩

/-- C2 (amended): for every scan with fewer than 360 samples,
`scan_callback` throws `std::out_of_range` from the bounds-checked
access before writing any sector, so every cached clearance retains its
prior value — but the `new_scan_data` and `initial_scan` flags are set
before validation, so the next tick resets the staleness counter to 0
instead of letting it continue to increment. -/
theorem C2_short_scan (ranges : List ℚ) (range_max : ℚ) (s : State)
    (h : ranges.length < 360) :
    (scan_callback ranges range_max s).2 = true
    ∧ (scan_callback ranges range_max s).1.scan_data_ = s.scan_data_
    ∧ (scan_callback ranges range_max s).1.new_scan_data = true
    ∧ (scan_callback ranges range_max s).1.initial_scan = true
    ∧ (update_callback (scan_callback ranges range_max s).1).1.since_new_scan = 0 := by
  have h359 : (359 : ℕ) ∈ frontIndices := by decide
  have h0 : minOver ranges (sectorIndices 0) range_max = none := by
    have : sectorIndices 0 = frontIndices := rfl
    rw [this]
    exact minOver_none_of_oob ranges frontIndices range_max ⟨359, h359, by omega⟩
  have hsc : scan_callback ranges range_max s
      = ({ s with initial_scan := true, new_scan_data := true }, true) := by
    simp only [scan_callback, allSectors, scanSectors, h0]
  rw [hsc]
  refine ⟨rfl, rfl, rfl, rfl, ?_⟩
  simp [update_callback]

/-- C2 (witness for the amended theorem): the empty scan. -/
theorem C2_short_scan_witness :
    (scan_callback [] (7/2) initState).2 = true :=
  (C2_short_scan [] (7/2) initState (by decide)).1

/-- C2 (counterexample): from a state whose cached clearances are all 2
and whose staleness counter is 5, a 100-sample scan throws (is
rejected) and the clearances are retained — but, contrary to the claim,
the fresh-scan flag IS set, and the staleness counter becomes 0 on the
next tick instead of incrementing to 6. -/
theorem C2_counterexample :
    (scan_callback (List.replicate 100 1) (7/2) staleState).2 = true
    ∧ (scan_callback (List.replicate 100 1) (7/2) staleState).1.scan_data_
        = staleState.scan_data_
    ∧ (scan_callback (List.replicate 100 1) (7/2) staleState).1.new_scan_data = true
    ∧ (update_callback
        (scan_callback (List.replicate 100 1) (7/2) staleState).1).1.since_new_scan = 0 := by
  refine ⟨?_, ?_, ?_, ?_⟩ <;> with_unfolding_all decide

/-- Helper: the velocity actually published equals the unscaled ladder
output of the same state multiplied componentwise by
`BASE_FACTOR ^ since_new_scan`. -/
theorem update_velocity_factor (s : State) :
    update_velocity s
      = (BASE_FACTOR ^ s.since_new_scan
           * (update_velocity { s with since_new_scan := 0 }).1,
         BASE_FACTOR ^ s.since_new_scan
           * (update_velocity { s with since_new_scan := 0 }).2) := by
  unfold update_velocity update_cmd_vel
  split_ifs <;> simp [Prod.ext_iff, pow_zero, mul_comm]

/-- C5: on every gated tick, the staleness counter becomes 0 when a
fresh scan arrived since the previous tick and its previous value plus 1
otherwise; the emitted command is the ladder output scaled by
`BASE_FACTOR ^ counter`; the factor is 1 at counter 0 and exactly
512/1000 = 0.512 at counter 3. -/
theorem C5_staleness_decay (s : State) (h : s.initial_scan = true) :
    ((update_callback s).1.since_new_scan
        = if s.new_scan_data then 0 else s.since_new_scan + 1)
    ∧ (update_callback s).2 = some (update_velocity (update_callback s).1)
    ∧ update_velocity (update_callback s).1
        = (BASE_FACTOR ^ (update_callback s).1.since_new_scan
             * (update_velocity { (update_callback s).1 with since_new_scan := 0 }).1,
           BASE_FACTOR ^ (update_callback s).1.since_new_scan
             * (update_velocity { (update_callback s).1 with since_new_scan := 0 }).2)
    ∧ BASE_FACTOR ^ (0 : ℕ) = 1
    ∧ BASE_FACTOR ^ (3 : ℕ) = 512/1000 := by
  refine ⟨?_, ?_, update_velocity_factor _,
    by norm_num [BASE_FACTOR], by norm_num [BASE_FACTOR]⟩
  · simp only [update_callback, h, Bool.not_true, Bool.false_eq_true, if_false]
    split_ifs <;> simp
  · simp only [update_callback, h, Bool.not_true, Bool.false_eq_true, if_false]

/-- C5 (witness): counter update at a concrete gated state with counter
5 and no pending fresh scan. -/
theorem C5_staleness_decay_witness :
    (update_callback staleState).1.since_new_scan
      = if staleState.new_scan_data then 0 else staleState.since_new_scan + 1 :=
  (C5_staleness_decay staleState rfl).1

/-- C3 (counterexample): with every cached clearance equal to 1.0, no
near-start pulse and staleness counter 0, the tick emits (0.2, 1.5) —
the `LEFT_FRONT > 0.9` rule fires — not the claimed (0.3, 0.0); with
staleness counter 1 it emits (0.16, 1.2), not the claimed (0.24, 0.0). -/
theorem C3_counterexample :
    (update_callback { initState with
        scan_data_ := (fun _ => 1), initial_scan := true, new_scan_data := true }).2 = some (1/5, 3/2)
    ∧ some ((1:ℚ)/5, (3:ℚ)/2) ≠ some ((3:ℚ)/10, (0:ℚ))
    ∧ (update_callback { initState with
        scan_data_ := (fun _ => 1), initial_scan := true, new_scan_data := false,
        since_new_scan := 0 }).2
        = some (4/25, 6/5)
    ∧ some ((4:ℚ)/25, (6:ℚ)/5) ≠ some ((24:ℚ)/100, (0:ℚ)) := by
  refine ⟨?_, ?_, ?_, ?_⟩ <;> with_unfolding_all decide

/-- C3 (amended): for every cached clearance state with all 12 entries
equal to 1.0, no near-start pulse, gate open: a tick taken with a fresh
scan pending (staleness counter resets to 0, base factor 0.8^0 = 1)
emits the command (0.2, 1.5), because the `left-front > 0.9` rule fires
first; a tick taken with no fresh scan and previous counter 0 (counter
becomes 1, factor 0.8) emits (0.16, 1.2). -/
theorem C3_all_ones_commands (s t : State)
    (hs1 : s.scan_data_ = fun _ => 1) (hs2 : s.near_start = false)
    (hs3 : s.initial_scan = true) (hs4 : s.new_scan_data = true)
    (ht1 : t.scan_data_ = fun _ => 1) (ht2 : t.near_start = false)
    (ht3 : t.initial_scan = true) (ht4 : t.new_scan_data = false)
    (ht5 : t.since_new_scan = 0) :
    (update_callback s).2 = some (1/5, 3/2)
    ∧ (update_callback t).2 = some (4/25, 6/5) := by
  constructor
  · simp only [update_callback, hs3, hs4, Bool.not_true, Bool.false_eq_true,
      if_false, if_true, update_velocity, hs1, hs2, update_cmd_vel]
    norm_num [BASE_FACTOR, LEFT_FRONT]
  · simp only [update_callback, ht3, ht4, ht5, Bool.not_true, Bool.false_eq_true,
      if_false, if_true, update_velocity, ht1, ht2, update_cmd_vel]
    norm_num [BASE_FACTOR, LEFT_FRONT]

/-- C3 (witness for the amended theorem): the two hypothesis states
instantiated concretely. -/
theorem C3_all_ones_commands_witness :
    (update_callback { initState with
        scan_data_ := (fun _ => 1), initial_scan := true, new_scan_data := true }).2 = some (1/5, 3/2)
    ∧ (update_callback { initState with
        scan_data_ := (fun _ => 1), initial_scan := true, new_scan_data := false,
        since_new_scan := 0 }).2
        = some (4/25, 6/5) :=
  C3_all_ones_commands _ _ rfl rfl rfl rfl rfl rfl rfl rfl rfl

/-- C4: for every clearance array and pulse flag, the unscaled output of
the embedded rule ladder (`update_velocity` with staleness counter 0, so
factor 1) equals the specification's seven-rule first-match ladder; in
particular, for clearances satisfying both rule 2 and rule 3
(left-front = 1.0, front = 0.5) the output is rule 2's (0.2, 1.5), not
rule 3's (0.0, −1.5). -/
theorem C4_rule_ladder :
    (∀ s : State, s.since_new_scan = 0 →
      update_velocity s = specDecisionPolicy s.scan_data_ s.near_start)
    ∧ specDecisionPolicy (fun i => if i = FRONT then 1/2 else 1) false = (2/10, 15/10)
    ∧ ((2:ℚ)/10, (15:ℚ)/10) ≠ ((0:ℚ), -((15:ℚ)/10)) := by
  refine ⟨?_, by with_unfolding_all decide, by with_unfolding_all decide⟩
  intro s h
  unfold update_velocity specDecisionPolicy
  rw [h]
  norm_num [update_cmd_vel, BASE_FACTOR]

/-- C4 (witness): the rule-ladder equivalence applied at a concrete
state with staleness counter 0. -/
theorem C4_rule_ladder_witness :
    update_velocity { initState with scan_data_ := fun _ => 1 }
      = specDecisionPolicy initState.scan_data_ initState.near_start
      ∨ update_velocity { initState with scan_data_ := fun _ => 1 }
      = specDecisionPolicy (fun _ => 1) false :=
  Or.inr (C4_rule_ladder.1 { initState with scan_data_ := fun _ => 1 } rfl)


/-- Helper: while the tracker is in the departure-wait state
(`first = false`, `start_moving = true`), pose samples that stay within
`START_RANGE` of the recorded start in both coordinates leave the
tracker state (other than `robot_pose_`) unchanged and raise no pulse. -/
theorem runPoses_no_pulse (yawOf : Quat → ℚ) (q : Quat) :
    ∀ (ps : List (ℚ × ℚ)) (s : State),
      s.first = false → s.start_moving = true →
      (∀ p ∈ ps, |p.1 - s.start_x| ≤ START_RANGE ∧ |p.2 - s.start_y| ≤ START_RANGE) →
      (runPoses yawOf q s ps).2 = List.replicate ps.length false := by
  intro ps
  induction ps with
  | nil => intro s _ _ _; rfl
  | cons p rest ih =>
    intro s h1 h2 h3
    obtain ⟨hx, hy⟩ := h3 p (List.mem_cons_self p rest)
    have hstep : odom_callback yawOf q p.1 p.2 s
        = ({ s with robot_pose_ := yawOf q }, false) := by
      simp only [odom_callback, h1, h2, Bool.false_eq_true, if_false, if_true]
      rw [if_neg]
      rintro (hc | hc)
      · exact absurd hc (not_lt.mpr hx)
      · exact absurd hc (not_lt.mpr hy)
    simp only [runPoses, hstep, List.length_cons, List.replicate_succ]
    rw [ih { s with robot_pose_ := yawOf q } h1 h2
      (fun p hp => h3 p (List.mem_cons_of_mem _ hp))]



/-- C6: the pose sequence (0,0), (1,1), (0.05,0.05) with threshold 0.2
yields exactly one near-start pulse, at the third (return) sample; and
every pose sequence whose samples never leave the Chebyshev
`START_RANGE` box around the first sample yields no pulse at all. -/
theorem C6_start_proximity :
    (runPoses yaw0 q0 initState [(0, 0), (1, 1), (1/20, 1/20)]).2 = [false, false, true]
    ∧ ∀ (yawOf : Quat → ℚ) (q : Quat) (x0 y0 : ℚ) (rest : List (ℚ × ℚ)),
        (∀ p ∈ rest, |p.1 - x0| ≤ START_RANGE ∧ |p.2 - y0| ≤ START_RANGE) →
        (runPoses yawOf q initState ((x0, y0) :: rest)).2
          = List.replicate (rest.length + 1) false := by
  constructor
  · with_unfolding_all decide
  · intro yawOf q x0 y0 rest hrest
    have hstep : odom_callback yawOf q x0 y0 initState
        = ({ initState with
              robot_pose_ := yawOf q, start_x := x0, start_y := y0, first := false },
           false) := by
      simp [odom_callback, initState]
    have htail := runPoses_no_pulse yawOf q rest
      { initState with
          robot_pose_ := yawOf q, start_x := x0, start_y := y0, first := false }
      rfl rfl hrest
    simp only [runPoses, hstep, List.length_cons, List.replicate_succ, htail]

/-- C6 (witness): a two-sample sequence that never leaves the start box
raises no pulse. -/
theorem C6_start_proximity_witness :
    (runPoses yaw0 q0 initState ((0, 0) :: [((0 : ℚ), (0 : ℚ))])).2
      = List.replicate ([((0 : ℚ), (0 : ℚ))].length + 1) false :=
  C6_start_proximity.2 yaw0 q0 0 0 [(0, 0)] (by with_unfolding_all decide)

/-- Helper: a `min`-fold is bounded by its initial accumulator. -/
theorem foldl_min_le_init : ∀ (l : List ℚ) (c : ℚ), l.foldl min c ≤ c := by
  intro l
  induction l with
  | nil => intro c; exact le_refl c
  | cons a t ih =>
    intro c
    exact le_trans (ih (min c a)) (min_le_left c a)

/-- Helper: a `min`-fold is bounded by every list element. -/
theorem foldl_min_le_mem : ∀ (l : List ℚ) (c x : ℚ), x ∈ l → l.foldl min c ≤ x := by
  intro l
  induction l with
  | nil => intro c x hx; cases hx
  | cons a t ih =>
    intro c x hx
    rcases List.mem_cons.mp hx with rfl | hm
    · exact le_trans (foldl_min_le_init t (min c x)) (min_le_right c x)
    · exact ih (min c a) x hm

/-- Helper: a lower bound of the accumulator and of every element is a
lower bound of the `min`-fold. -/
theorem le_foldl_min : ∀ (l : List ℚ) (c x : ℚ), x ≤ c → (∀ v ∈ l, x ≤ v) →
    x ≤ l.foldl min c := by
  intro l
  induction l with
  | nil => intro c x hc _; exact hc
  | cons a t ih =>
    intro c x hc hv
    exact ih (min c a) x (le_min hc (hv a (List.mem_cons_self a t)))
      fun v hvm => hv v (List.mem_cons_of_mem a hvm)

/-- Helper: the loop update `if v < closest then v else closest` is
`min closest v`. -/
theorem loop_min (a b : ℚ) : (if b < a then b else a) = min a b := by
  rw [min_def]
  split_ifs with h1 h2 h2 <;> first | rfl | linarith

/-- Helper: when every visited index is inside the scan, the aggregation
loop completes and returns the `min`-fold of the visited samples. -/
theorem minOver_eq_foldl (ranges : List ℚ) :
    ∀ (idxs : List ℕ) (c : ℚ), (∀ i ∈ idxs, i < ranges.length) →
      minOver ranges idxs c
        = some (idxs.foldl (fun acc i => min acc (ranges.getD i 0)) c) := by
  intro idxs
  induction idxs with
  | nil => intro c _; rfl
  | cons j rest ih =>
    intro c h
    have hj : j < ranges.length := h j (List.mem_cons_self j rest)
    have hget : rangeAt ranges j = some (ranges.getD j 0) := by
      rw [rangeAt, List.get?_eq_getElem?, List.getElem?_eq_getElem hj,
        List.getD_eq_getElem ranges 0 hj]
    simp only [minOver, hget, List.foldl_cons, loop_min]
    exact ih (min c (ranges.getD j 0)) fun i hi => h i (List.mem_cons_of_mem j hi)

/-- Helper: every index any sector visits is below 360. -/
theorem sectorIndices_lt_360 : ∀ (i : Fin 12), ∀ k ∈ sectorIndices i, k < 360 := by
  decide

/-- Helper: with every sector loop completing (values `w`), the sector
loop writes `w i` into every processed sector and reports no throw. -/
theorem scanSectors_writes (ranges : List ℚ) (range_max : ℚ) (w : Fin 12 → ℚ)
    (hw : ∀ i, minOver ranges (sectorIndices i) range_max = some (w i)) :
    ∀ (secs : List (Fin 12)) (sd : Fin 12 → ℚ),
      scanSectors ranges range_max secs sd
        = (fun j => if j ∈ secs then w j else sd j, false) := by
  intro secs
  induction secs with
  | nil =>
    intro sd
    simp [scanSectors]
  | cons i rest ih =>
    intro sd
    simp only [scanSectors, hw i]
    rw [ih]
    simp only [Prod.mk.injEq, and_true]
    funext j
    by_cases hj : j = i
    · subst hj
      by_cases hr : j ∈ rest <;> simp [List.mem_cons, hr]
    · by_cases hr : j ∈ rest <;> simp [List.mem_cons, hj, hr]

/-- Helper: for a full-length scan, `scan_callback` completes every
sector, writing `sectorMin` into each entry, throwing nothing. -/
theorem scan_callback_complete (ranges : List ℚ) (range_max : ℚ) (s : State)
    (h : 360 ≤ ranges.length) :
    scan_callback ranges range_max s
      = ({ s with
            initial_scan := true, new_scan_data := true,
            scan_data_ := sectorMin ranges range_max }, false) := by
  have hw : ∀ i, minOver ranges (sectorIndices i) range_max
      = some (sectorMin ranges range_max i) := by
    intro i
    exact minOver_eq_foldl ranges (sectorIndices i) range_max
      fun k hk => lt_of_lt_of_le (sectorIndices_lt_360 i k hk) h
  have hmem : ∀ j : Fin 12, j ∈ allSectors := by decide
  simp only [scan_callback, scanSectors_writes ranges range_max _ hw allSectors]
  simp [hmem]


/-- Helper: a `min`-fold over elements all equal to the initial
accumulator returns it unchanged. -/
theorem foldl_min_const : ∀ (l : List ℚ) (c : ℚ), (∀ v ∈ l, v = c) → l.foldl min c = c := by
  intro l
  induction l with
  | nil => intro c _; rfl
  | cons a t ih =>
    intro c hall
    have ha : a = c := hall a (List.mem_cons_self a t)
    rw [List.foldl_cons, ha, min_self]
    exact ih c fun v hv => hall v (List.mem_cons_of_mem a hv)

/-- C7: for every scan of at least 360 samples, the forward (sector 0)
clearance is the `min`-fold, started at `range_max`, over the samples at
indices 350–359 and 0–9 (the wrap-around window); in particular a scan
whose global minimum sits at index 0, or at index 359 (the last index of
the wrap window), and does not exceed `range_max`, yields that minimum
as the forward clearance. -/
theorem C7_front_wraparound (ranges : List ℚ) (range_max : ℚ) (s : State)
    (h : 360 ≤ ranges.length) :
    ((scan_callback ranges range_max s).1.scan_data_ FRONT
        = frontIndices.foldl (fun acc k => min acc (ranges.getD k 0)) range_max)
    ∧ ((∀ j < ranges.length, ranges.getD 0 0 ≤ ranges.getD j 0) →
        ranges.getD 0 0 ≤ range_max →
        (scan_callback ranges range_max s).1.scan_data_ FRONT = ranges.getD 0 0)
    ∧ ((∀ j < ranges.length, ranges.getD 359 0 ≤ ranges.getD j 0) →
        ranges.getD 359 0 ≤ range_max →
        (scan_callback ranges range_max s).1.scan_data_ FRONT = ranges.getD 359 0) := by
  have hsd : (scan_callback ranges range_max s).1.scan_data_ FRONT
      = (frontIndices.map (fun k => ranges.getD k 0)).foldl min range_max := by
    rw [scan_callback_complete ranges range_max s h]
    show sectorMin ranges range_max FRONT = _
    rw [sectorMin, show sectorIndices FRONT = frontIndices from rfl, ← List.foldl_map]
  have hfr360 : ∀ k ∈ frontIndices, k < 360 := by decide
  have hpoint : ∀ m : ℕ, m ∈ frontIndices →
      (∀ j < ranges.length, ranges.getD m 0 ≤ ranges.getD j 0) →
      ranges.getD m 0 ≤ range_max →
      (frontIndices.map (fun k => ranges.getD k 0)).foldl min range_max
        = ranges.getD m 0 := by
    intro m hm hglob hmax
    apply le_antisymm
    · exact foldl_min_le_mem _ _ _ (List.mem_map_of_mem _ hm)
    · apply le_foldl_min _ _ _ hmax
      intro v hv
      obtain ⟨k, hk, rfl⟩ := List.mem_map.mp hv
      exact hglob k (lt_of_lt_of_le (hfr360 k hk) h)
  refine ⟨by rw [hsd, List.foldl_map], ?_, ?_⟩
  · intro hglob hmax
    rw [hsd, hpoint 0 (by decide) hglob hmax]
  · intro hglob hmax
    rw [hsd, hpoint 359 (by decide) hglob hmax]

/-- C7 (witness): a full-length all-ones scan evaluated through the
wrap-around characterisation. -/
theorem C7_front_wraparound_witness :
    (scan_callback onesScan (7/2) initState).1.scan_data_ FRONT
      = frontIndices.foldl (fun acc k => min acc (onesScan.getD k 0)) (7/2) :=
  (C7_front_wraparound onesScan (7/2) initState (by decide)).1

/-- C8: for every scan of at least 360 samples, all of whose samples are
non-negative and whose `range_max` is non-negative, every cached sector
clearance after `scan_callback` lies in [0, range_max]; and a scan all
of whose samples equal `range_max` yields `range_max` in every entry. -/
theorem C8_clearance_interval (ranges : List ℚ) (range_max : ℚ) (s : State)
    (h : 360 ≤ ranges.length) (hnn : ∀ v ∈ ranges, 0 ≤ v) (hm : 0 ≤ range_max) :
    (∀ i : Fin 12, 0 ≤ (scan_callback ranges range_max s).1.scan_data_ i
        ∧ (scan_callback ranges range_max s).1.scan_data_ i ≤ range_max)
    ∧ ((∀ v ∈ ranges, v = range_max) →
        ∀ i : Fin 12, (scan_callback ranges range_max s).1.scan_data_ i = range_max) := by
  have hsd : ∀ i : Fin 12, (scan_callback ranges range_max s).1.scan_data_ i
      = ((sectorIndices i).map (fun k => ranges.getD k 0)).foldl min range_max := by
    intro i
    rw [scan_callback_complete ranges range_max s h]
    show sectorMin ranges range_max i = _
    rw [sectorMin, ← List.foldl_map]
  have hvals : ∀ i : Fin 12,
      ∀ v ∈ (sectorIndices i).map (fun k => ranges.getD k 0), v ∈ ranges := by
    intro i v hv
    obtain ⟨k, hk, rfl⟩ := List.mem_map.mp hv
    have hklt : k < ranges.length := lt_of_lt_of_le (sectorIndices_lt_360 i k hk) h
    rw [List.getD_eq_getElem ranges 0 hklt]
    exact List.getElem_mem hklt
  constructor
  · intro i
    rw [hsd i]
    exact ⟨le_foldl_min _ _ _ hm fun v hv => hnn v (hvals i v hv),
      foldl_min_le_init _ _⟩
  · intro hall i
    rw [hsd i]
    exact foldl_min_const _ _ fun v hv => hall v (hvals i v hv)

/-- C8 (witness): the all-ones scan with `range_max = 7/2` satisfies the
bounds at the front sector. -/
theorem C8_clearance_interval_witness :
    0 ≤ (scan_callback onesScan (7/2) initState).1.scan_data_ 0
    ∧ (scan_callback onesScan (7/2) initState).1.scan_data_ 0 ≤ 7/2 :=
  (C8_clearance_interval onesScan (7/2) initState (by decide)
    (by with_unfolding_all decide) (by with_unfolding_all decide)).1 0


/-- Helper: how one event changes the first-scan gate: a scan opens it,
everything else leaves it alone. -/
theorem step_initial_scan (yawOf : Quat → ℚ) (s : State) (e : Event) :
    (step yawOf s e).1.initial_scan = (s.initial_scan || isScan e) := by
  cases e with
  | scan r m => simp [step, scan_callback, isScan]
  | odom q px py =>
    simp only [step, odom_callback, isScan, Bool.or_false]
    split_ifs <;> rfl
  | tick =>
    simp only [step, update_callback, isScan, Bool.or_false]
    split_ifs <;> rfl

/-- Helper: a tick emits a command exactly when the first-scan gate is
open. -/
theorem update_callback_isSome (s : State) :
    (update_callback s).2.isSome = s.initial_scan := by
  cases hb : s.initial_scan <;> simp [update_callback, hb]

/-- Helper: generalisation of the tick-gating property to an arbitrary
starting state: each event yields exactly one output slot, non-tick
events emit nothing, and a tick emits a command exactly when the gate
was open at start or some earlier scan event opened it. -/
theorem run_gate_spec (yawOf : Quat → ℚ) : ∀ (trace : List Event) (s : State),
    ((run yawOf s trace).2.length = trace.length)
    ∧ ∀ (i : ℕ) (hi : i < trace.length) (ho : i < (run yawOf s trace).2.length),
        (trace.get ⟨i, hi⟩ ≠ Event.tick → (run yawOf s trace).2.get ⟨i, ho⟩ = none)
        ∧ (trace.get ⟨i, hi⟩ = Event.tick →
            ((run yawOf s trace).2.get ⟨i, ho⟩).isSome
              = (s.initial_scan || hasScan (trace.take i))) := by
  intro trace
  induction trace with
  | nil =>
    intro s
    exact ⟨rfl, fun i hi => absurd hi (Nat.not_lt_zero i)⟩
  | cons e rest ih =>
    intro s
    constructor
    · simp only [run, List.length_cons]
      rw [(ih (step yawOf s e).1).1]
    · intro i hi ho
      cases i with
      | zero =>
        constructor
        · intro hne
          cases e with
          | scan r m => rfl
          | odom q px py => rfl
          | tick => exact absurd rfl hne
        · intro he
          have he' : e = Event.tick := he
          subst he'
          show ((update_callback s).2).isSome = _
          rw [update_callback_isSome]
          simp [hasScan]
      | succ n =>
        have hi' : n < rest.length := by simpa using hi
        have ho' : n < (run yawOf (step yawOf s e).1 rest).2.length := by
          rw [(ih (step yawOf s e).1).1]
          exact hi'
        have hrec := (ih (step yawOf s e).1).2 n hi' ho'
        constructor
        · intro hne
          exact hrec.1 hne
        · intro he
          have hout : (run yawOf s (e :: rest)).2.get ⟨n + 1, ho⟩
              = (run yawOf (step yawOf s e).1 rest).2.get ⟨n, ho'⟩ := rfl
          rw [hout, hrec.2 he, step_initial_scan]
          simp [hasScan, List.take_succ_cons, Bool.or_assoc]

/-- C9: along every execution from the initial state, each event
produces exactly one output slot; non-tick events emit no command; a
tick emits no command when no scan event has yet been delivered, and
emits exactly one command when at least one scan event (however short)
preceded it. -/
theorem C9_emit_gating (yawOf : Quat → ℚ) (trace : List Event) :
    ((run yawOf initState trace).2.length = trace.length)
    ∧ ∀ (i : ℕ) (hi : i < trace.length) (ho : i < (run yawOf initState trace).2.length),
        (trace.get ⟨i, hi⟩ ≠ Event.tick →
          (run yawOf initState trace).2.get ⟨i, ho⟩ = none)
        ∧ (trace.get ⟨i, hi⟩ = Event.tick →
            ((run yawOf initState trace).2.get ⟨i, ho⟩).isSome
              = hasScan (trace.take i)) := by
  obtain ⟨h1, h2⟩ := run_gate_spec yawOf trace initState
  refine ⟨h1, fun i hi ho => ⟨(h2 i hi ho).1, fun he => ?_⟩⟩
  rw [(h2 i hi ho).2 he]
  rfl

/-- C9 (witness): in the trace (tick, scan, tick) the first tick emits
nothing — no scan preceded it. -/
theorem C9_emit_gating_witness :
    ((run yaw0 initState [Event.tick, Event.scan onesScan (7/2), Event.tick]).2.get
        ⟨0, by with_unfolding_all decide⟩).isSome
      = hasScan (List.take 0 [Event.tick, Event.scan onesScan (7/2), Event.tick]) :=
  ((C9_emit_gating yaw0 [Event.tick, Event.scan onesScan (7/2), Event.tick]).2 0
    (by decide) (by with_unfolding_all decide)).2 rfl

/-- Helper: one event dispatch preserves agreement-up-to-orientation:
from states that agree on everything except `robot_pose_`, events that
agree on everything except the orientation quaternion lead (under
possibly different yaw extractions) to states that again so agree, and
to identical outputs. -/
theorem step_shadow (y1 y2 : Quat → ℚ) (s1 s2 : State) (e1 e2 : Event)
    (hs : stateShadow s1 = stateShadow s2) (he : eventShadow e1 = eventShadow e2) :
    stateShadow (step y1 s1 e1).1 = stateShadow (step y2 s2 e2).1
    ∧ (step y1 s1 e1).2 = (step y2 s2 e2).2 := by
  obtain ⟨rp1, sx1, sy1, ns1, sd1, nsd1, sns1, is1, f1, sm1⟩ := s1
  obtain ⟨rp2, sx2, sy2, ns2, sd2, nsd2, sns2, is2, f2, sm2⟩ := s2
  simp only [stateShadow, State.mk.injEq] at hs
  obtain ⟨-, h2, h3, h4, h5, h6, h7, h8, h9, h10⟩ := hs
  subst h2 h3 h4 h5 h6 h7 h8 h9 h10
  cases e1 with
  | scan r1 m1 =>
    cases e2 with
    | scan r2 m2 =>
      simp only [eventShadow, Event.scan.injEq] at he
      obtain ⟨hr, hm⟩ := he
      subst hr hm
      exact ⟨rfl, rfl⟩
    | odom q2 px2 py2 => exact absurd he (by simp [eventShadow])
    | tick => exact absurd he (by simp [eventShadow])
  | odom q1 px1 py1 =>
    cases e2 with
    | scan r2 m2 => exact absurd he (by simp [eventShadow])
    | odom q2 px2 py2 =>
      simp only [eventShadow, Event.odom.injEq, true_and] at he
      obtain ⟨hx, hy⟩ := he
      subst hx hy
      constructor <;> simp only [step, odom_callback] <;> (try split_ifs) <;> rfl
    | tick => exact absurd he (by simp [eventShadow])
  | tick =>
    cases e2 with
    | scan r2 m2 => exact absurd he (by simp [eventShadow])
    | odom q2 px2 py2 => exact absurd he (by simp [eventShadow])
    | tick =>
      constructor <;> simp only [step, update_callback] <;> (try split_ifs) <;> rfl

/-- Helper: trace-level orientation non-interference, generalised to a
pair of agreeing starting states. -/
theorem run_shadow (y1 y2 : Quat → ℚ) : ∀ (t1 t2 : List Event) (s1 s2 : State),
    stateShadow s1 = stateShadow s2 → t1.map eventShadow = t2.map eventShadow →
    (run y1 s1 t1).2 = (run y2 s2 t2).2 := by
  intro t1
  induction t1 with
  | nil =>
    intro t2 s1 s2 _ ht
    cases t2 with
    | nil => rfl
    | cons e2 r2 => simp at ht
  | cons e1 r1 ih =>
    intro t2 s1 s2 hs ht
    cases t2 with
    | nil => simp at ht
    | cons e2 r2 =>
      simp only [List.map_cons, List.cons.injEq] at ht
      obtain ⟨he, hr⟩ := ht
      obtain ⟨hss, hoo⟩ := step_shadow y1 y2 s1 s2 e1 e2 hs he
      simp only [run]
      rw [hoo, ih r2 (step y1 s1 e1).1 (step y2 s2 e2).1 hss hr]

/-- C10: two executions fed identical scans, ticks and pose positions
but arbitrarily different orientation quaternions — and even different
yaw-extraction functions — emit identical command sequences: the yaw
stored in `robot_pose_` is never read by the decision pipeline. -/
theorem C10_orientation_noninterference (y1 y2 : Quat → ℚ) (t1 t2 : List Event)
    (h : t1.map eventShadow = t2.map eventShadow) :
    (run y1 initState t1).2 = (run y2 initState t2).2 :=
  run_shadow y1 y2 t1 t2 initState initState rfl h

/-- C10 (witness): two concrete traces differing only in the
orientation quaternion (and with different yaw extractions) produce the
same outputs. -/
theorem C10_orientation_noninterference_witness :
    (run (fun q => q.qx) initState
        [Event.odom ⟨1, 2, 3, 4⟩ 0 0, Event.scan onesScan (7/2), Event.tick]).2
      = (run (fun _ => 5) initState
        [Event.odom ⟨9, 8, 7, 6⟩ 0 0, Event.scan onesScan (7/2), Event.tick]).2 :=
  C10_orientation_noninterference (fun q => q.qx) (fun _ => 5) _ _
    (by with_unfolding_all decide)

end WallFollower
